import Mathlib

/-!
Shallow embedding of the request mediator implemented in
`netlify/functions/generate.ts` (and duplicated, with the same access,
rate-limiting and creativity logic, in `worker/src/index.ts`).

Conventions of the embedding:
* JS strings are modelled as `String` / `List Char` (the text-processing
  pipeline works on `List Char`).
* Absent or `undefined` string values that the source only ever consults
  through JS truthiness (`x || y`) are modelled as the empty string, which
  is exactly how the source's falsiness test conflates them.
* `Date.now()` timestamps are `Int` milliseconds.
* The fallible `JSON.parse` of the request body and the structure of the
  upstream JSON reply are inputs of the embedded handler, so that the
  handler itself stays a pure function.
* JS number arithmetic in `mapCreativity` is idealised as exact rational
  arithmetic, with `Number(x.toFixed(2))` modelled as decimal rounding to
  two places (half away from zero on the nonnegative values that occur).
-/

set_option maxHeartbeats 2000000
set_option maxRecDepth 8000

/-- Characters treated as whitespace by the JS regex class `\s` and by
`String.prototype.trim`, restricted to the ASCII range (the wider Unicode
whitespace characters never occur in the texts this development reasons
about). -/
def isWs (c : Char) : Bool :=
  c = ' ' || c = '\t' || c = '\n' || c = '\r' || c = '\x0b' || c = '\x0c'

/-- Line terminators that the JS regex dot `.` refuses to match. -/
def isLineTerm (c : Char) : Bool :=
  c = '\n' || c = '\r'

/-- Model of `String.prototype.trim`: drop whitespace from both ends. -/
def jsTrim (s : List Char) : List Char :=
  ((s.dropWhile isWs).reverse.dropWhile isWs).reverse

/-- Model of `String.prototype.split` with a one-character separator:
`"".split(x) = [""]`, and a trailing separator produces a trailing empty
piece, exactly as in JS. -/
def jsSplit (sep : Char) : List Char → List (List Char)
  | [] => [[]]
  | c :: cs =>
    if c = sep then [] :: jsSplit sep cs
    else
      match jsSplit sep cs with
      | [] => [[c]]
      | l :: ls => (c :: l) :: ls

/-- Model of `Array.prototype.join` with a one-character separator. -/
def joinSep (sep : Char) : List (List Char) → List Char
  | [] => []
  | [l] => l
  | l :: ls => l ++ sep :: joinSep sep ls

/-- Case-insensitive literal-prefix test, as used when anchoring the
regex literals `Title:` and `Body:` at a candidate position (the JS `i`
flag, on the ASCII letters involved, is plain ASCII lower-casing). -/
def startsWithCI (pat s : List Char) : Bool :=
  (s.take pat.length).map Char.toLower == pat

/-- Semantics of the regex tail `\s*(.+)`: the star is greedy, so the
capture starts after the longest whitespace run that still leaves `.+` a
first character that is not a line terminator; the greedy `.+` then
captures up to the next line terminator.  Returns `none` when no
backtracking choice lets `.+` match. -/
def capAfterWs : List Char → Option (List Char)
  | [] => none
  | c :: cs =>
    if isWs c then
      match capAfterWs cs with
      | some g => some g
      | none =>
        if isLineTerm c then none
        else some ((c :: cs).takeWhile (fun x => !isLineTerm x))
    else
      if isLineTerm c then none
      else some ((c :: cs).takeWhile (fun x => !isLineTerm x))

/-- Semantics of `text.match(/Title:\s*(.+)/i)`: the leftmost position
where the whole pattern matches wins, and positions where the literal
matches but `\s*(.+)` cannot are skipped, exactly as a backtracking regex
engine does.  Returns the capture group. -/
def findMatchTitle : List Char → Option (List Char)
  | [] => none
  | c :: tl =>
    if startsWithCI ("title:".toList) (c :: tl) then
      match capAfterWs ((c :: tl).drop 6) with
      | some g => some g
      | none => findMatchTitle tl
    else findMatchTitle tl

/-- Semantics of `text.match(/Body:\s*([\s\S]*)/i)`: at the leftmost
occurrence of the literal, the greedy `\s*` eats the whitespace run and
the capture `[\s\S]*` is everything that remains (it may be empty, so the
pattern succeeds at any occurrence of the literal). -/
def findMatchBody : List Char → Option (List Char)
  | [] => none
  | c :: tl =>
    if startsWithCI ("body:".toList) (c :: tl) then
      some (((c :: tl).drop 5).dropWhile isWs)
    else findMatchBody tl

/-- Result of the output normalizer: the `{ title, text }` object built
by `parseTitleAndBody`. -/
structure ParsedOutput where
  title : List Char
  text : List Char
deriving Repr, DecidableEq

/-- Embedding of `parseTitleAndBody` (generate.ts:207-225): labelled
`Title:`/`Body:` extraction when both patterns match, otherwise the
positional fallback over non-blank lines.  The repository copy of the
function carries JSON-escape artifacts (a doubled backslash in the two
regex literals, and escaped quotes in `join("\n")` that would not even be
valid TS); the embedding reads them de-escaped, which is the only
syntactically valid reading of the function. -/
def parseTitleAndBody (text : List Char) : ParsedOutput :=
  let fallbackLines := (jsSplit '\n' text).filter (fun l => jsTrim l ≠ [])
  let fallbackTitle := match fallbackLines with
    | [] => []
    | l :: _ => jsTrim l
  match findMatchTitle text, findMatchBody text with
  | some t, some b => ⟨jsTrim t, jsTrim b⟩
  | _, _ =>
    let bodyFallback := if fallbackLines.length > 1
      then jsTrim (joinSep '\n' (fallbackLines.drop 1))
      else text
    ⟨fallbackTitle, bodyFallback⟩

/-- Sliding-window size `WINDOW_MS = 60_000` milliseconds. -/
def WINDOW_MS : Int := 60000

/-- Admission ceiling `MAX_REQUESTS_PER_WINDOW = 12`. -/
def MAX_REQUESTS_PER_WINDOW : Nat := 12

/-- Entry of a rate-limiter bucket: `{ key, timestamps }`. -/
structure RateKey where
  key : String
  timestamps : List Int
deriving Repr, DecidableEq

/-- A JS `Map<string, RateKey>` modelled as an insertion-ordered
association list. -/
abbrev RateMap : Type := List (String × RateKey)

/-- Model of `Map.prototype.get` (with `undefined` as `none`). -/
def mapGet (m : RateMap) (k : String) : Option RateKey :=
  match List.find? (fun p => p.1 == k) m with
  | some p => some p.2
  | none => none

/-- Model of `Map.prototype.set`: replace in place when the key is
present, otherwise append. -/
def mapSet (m : RateMap) (k : String) (v : RateKey) : RateMap :=
  if List.any m (fun p => p.1 == k) then
    List.map (fun p => if p.1 == k then (k, v) else p) m
  else m ++ [(k, v)]

/-- Embedding of `withinRateLimit` (generate.ts:53-60, worker 88-95):
look up or lazily create the entry, prune timestamps outside the window,
append `now`, store the entry back, and admit iff the resulting count is
within the ceiling.  `now` stands for `Date.now()`. -/
def withinRateLimit (m : RateMap) (key : String) (now : Int) : Bool × RateMap :=
  let entry := (mapGet m key).getD ⟨key, []⟩
  let pruned := entry.timestamps.filter (fun t => now - t < WINDOW_MS)
  let entry2 : RateKey := ⟨entry.key, pruned ++ [now]⟩
  let m2 := mapSet m key entry2
  (decide (entry2.timestamps.length ≤ MAX_REQUESTS_PER_WINDOW), m2)

/-- State of one bucket after `n` consecutive `withinRateLimit` calls for
key `k`, all at instant `t`, starting from an empty map (the scenario of
the spec's rate-limiter test sketch). -/
def callsAt (k : String) (t : Int) : Nat → RateMap
  | 0 => []
  | n + 1 => (withinRateLimit (callsAt k t n) k t).2

/-- Model of `Number(q.toFixed(2))` on the nonnegative rationals this
development applies it to: decimal rounding to two places, half away from
zero.  Binary floating point is idealised as exact rational arithmetic. -/
def toFixed2 (q : ℚ) : ℚ :=
  (⌊q * 100 + 0.5⌋ : ℚ) / 100

/-- Embedding of `mapCreativity` (generate.ts:62-66, worker 97-101). -/
def mapCreativity (value : ℚ) : ℚ :=
  let clamped := max 0 (min 100 value)
  let temp := 0.2 + (0.7 * clamped) / 100
  toFixed2 temp

/-- Embedding of the `top_p` expression sent upstream
(generate.ts:172, worker 184): `Math.min(1, 0.9 + temperature * 0.1)`. -/
def handlerTopP (temperature : ℚ) : ℚ :=
  min 1 (0.9 + temperature * 0.1)

/-- Server-side configuration read from `process.env` / the worker `Env`.
Unset variables are the empty string (for the string-typed settings the
source only tests through `||`), and `none` for the numeric output cap. -/
structure Env where
  ALLOWED_ORIGIN : String
  ALLOWED_TOKENS : String
  MAX_OUTPUT_CHARS : Option Nat
  OPENAI_API_KEY : String
  PROMPT_ID : String
deriving Repr, DecidableEq

/-- Embedding of `normalizeTokens` (generate.ts:41-46): split the raw
comma-separated allow-list, trim each entry, and drop falsy (empty)
entries. -/
def normalizeTokens (raw : String) : List String :=
  ((jsSplit ',' raw.toList).map (fun token => String.mk (jsTrim token))).filter
    (fun token => token ≠ "")

/-- Embedding of `isAllowedToken` (generate.ts:48-51). -/
def isAllowedToken (token : String) (env : Env) : Bool :=
  (normalizeTokens env.ALLOWED_TOKENS).contains token

/-- Embedding of `getAllowedOrigin` (generate.ts:86-90): the empty string
stands for an absent header or an unset setting, as the source's
truthiness tests conflate them. -/
def getAllowedOrigin (requestOrigin : String) (env : Env) : String :=
  if requestOrigin = "" || env.ALLOWED_ORIGIN = "" then ""
  else if requestOrigin = env.ALLOWED_ORIGIN then requestOrigin else ""

/-- Outcome of `JSON.parse(event.body || "{}")`: either the parse throws,
or it yields an object whose `token` field is absent (`none`) or a
string.  Fields of the payload the handler's control flow never branches
on are omitted. -/
inductive BodyParse where
  | malformed
  | parsed (token : Option String)
deriving Repr, DecidableEq

/-- Inbound request event.  `origin` models
`event.headers?.origin || event.headers?.Origin`, and the two
address headers model `x-nf-client-connection-ip` / `x-forwarded-for`;
absent headers are the empty string. -/
structure Event where
  httpMethod : String
  origin : String
  xNfIp : String
  xForwardedFor : String
  body : BodyParse
deriving Repr, DecidableEq

/-- One `content` element of the upstream reply:
`{ type?: string, text?: string }`. -/
structure OpenAIContentItem where
  type : Option String
  text : Option String
deriving Repr, DecidableEq

/-- One `output` element of the upstream reply:
`{ content?: Array<...> }`. -/
structure OpenAIOutputItem where
  content : Option (List OpenAIContentItem)
deriving Repr, DecidableEq

/-- Parsed JSON of a successful upstream reply
(generate.ts:187-192). -/
structure OpenAIData where
  output_text : Option String
  output : Option (List OpenAIOutputItem)
deriving Repr, DecidableEq

/-- JS `a || b` on a possibly-undefined string `a`: falls through when
`a` is absent or empty. -/
def jsOrStr (a : Option String) (b : String) : String :=
  match a with
  | some s => if s = "" then b else s
  | none => b

/-- Embedding of the `rawText` extraction (generate.ts:193-200):
`data.output_text || data.output?.flatMap(...).filter(...).map(...).join("\n") || ""`. -/
def extractRawText (data : OpenAIData) : String :=
  jsOrStr data.output_text
    (jsOrStr
      ((data.output.map (fun out =>
        String.mk (joinSep '\n'
          ((((out.map (fun item => item.content.getD [])).flatten).filter
              (fun item => item.type == some ("output_text"))).map
            (fun item => (item.text.getD ("")).toList))))))
      (""))

/-- Result of the upstream `fetch` as the handler observes it: a
non-`ok` HTTP response with its raw error text, or an `ok` response with
its parsed JSON. -/
inductive UpstreamReply where
  | httpError (text : String)
  | ok (data : OpenAIData)
deriving Repr, DecidableEq

/-- Body of a handler response. -/
inductive RespBody where
  | empty
  | error (msg : String)
  | success (title : List Char) (text : List Char)
deriving Repr, DecidableEq

/-- Handler response: status code, the optional
`Access-Control-Allow-Origin` header, and the JSON body. -/
structure Response where
  statusCode : Nat
  acao : Option String
  body : RespBody
deriving Repr, DecidableEq

/-- Embedding of `jsonResponse` (generate.ts:30-39): the
`Access-Control-Allow-Origin` header is attached iff `origin` is truthy
(nonempty). -/
def jsonResponse (body : RespBody) (status : Nat) (origin : String) : Response :=
  ⟨status, if origin = "" then none else some origin, body⟩

/-- The two module-level rate-limiter maps. -/
structure Buckets where
  tokenBuckets : RateMap
  ipBuckets : RateMap

/-- Embedding of the request handler (generate.ts:92-205).  The ambient
inputs `now` (for `Date.now()`) and `upstream` (for the single `fetch` to
the generation API) are passed explicitly; `upstream` is consulted only
on the path that performs the call in the source.  Returns the response
together with the updated rate-limiter state. -/
def handler (env : Env) (st : Buckets) (now : Int) (event : Event)
    (upstream : UpstreamReply) : Response × Buckets :=
  let origin := getAllowedOrigin event.origin env
  if event.httpMethod = "OPTIONS" then
    if origin = "" then (⟨403, none, .empty⟩, st)
    else (⟨204, some origin, .empty⟩, st)
  else if origin = "" then
    (jsonResponse (.error ("허용되지 않은 출처입니다.")) 403 (""), st)
  else if event.httpMethod ≠ "POST" then
    (jsonResponse (.error ("허용되지 않은 요청 방식입니다.")) 405 origin, st)
  else
    match event.body with
    | .malformed => (jsonResponse (.error ("요청 형식이 올바르지 않습니다.")) 400 origin, st)
    | .parsed token =>
      let tokenVal := token.getD ("")
      if tokenVal = "" || !isAllowedToken tokenVal env then
        (jsonResponse (.error ("접근 권한이 없습니다.")) 401 origin, st)
      else
        let ip := if event.xNfIp ≠ "" then event.xNfIp
          else if event.xForwardedFor ≠ "" then event.xForwardedFor
          else "unknown"
        let tokenRes := withinRateLimit st.tokenBuckets tokenVal now
        let ipRes := withinRateLimit st.ipBuckets ip now
        let st2 : Buckets := ⟨tokenRes.2, ipRes.2⟩
        if !tokenRes.1 || !ipRes.1 then
          (jsonResponse (.error ("요청이 너무 많습니다. 잠시 후 다시 시도하세요.")) 429 origin, st2)
        else
          let maxOutputChars := env.MAX_OUTPUT_CHARS.getD 2500
          match upstream with
          | .httpError text =>
            (jsonResponse (.error ("OpenAI 오류: " ++ text)) 502 origin, st2)
          | .ok data =>
            let rawText := extractRawText data
            let trimmed := rawText.toList.take maxOutputChars
            let parsed := parseTitleAndBody trimmed
            (jsonResponse (.success parsed.title parsed.text) 200 origin, st2)

/-- Positional fallback of the output normalizer, written from the claim
as amended: the first non-blank line, trimmed, is the title; the
remaining non-blank lines, rejoined with newlines and trimmed, are the
body; with fewer than two non-blank lines the entire original text is the
body and the title is the trimmed first non-blank line (empty when there
is none). -/
def specPositional (s : List Char) : ParsedOutput :=
  match (jsSplit '\n' s).filter (fun l => jsTrim l ≠ []) with
  | [] => ⟨[], s⟩
  | [t] => ⟨jsTrim t, s⟩
  | t :: rest => ⟨jsTrim t, jsTrim (joinSep '\n' rest)⟩

lemma length_jsTrim_le (s : List Char) : (jsTrim s).length ≤ s.length := by
  unfold jsTrim
  calc ((s.dropWhile isWs).reverse.dropWhile isWs).reverse.length
      = ((s.dropWhile isWs).reverse.dropWhile isWs).length := List.length_reverse _
    _ ≤ (s.dropWhile isWs).reverse.length := (List.dropWhile_sublist _).length_le
    _ = (s.dropWhile isWs).length := List.length_reverse _
    _ ≤ s.length := (List.dropWhile_sublist _).length_le

lemma capAfterWs_length_le : ∀ s g, capAfterWs s = some g → g.length ≤ s.length := by
  intro s
  induction s with
  | nil => intro g h; simp [capAfterWs] at h
  | cons c cs ih =>
    intro g h
    unfold capAfterWs at h
    by_cases hws : isWs c
    · simp only [hws, if_true] at h
      rcases hrec : capAfterWs cs with _ | g2
      · rw [hrec] at h
        by_cases hlt : isLineTerm c
        · simp [hlt] at h
        · simp only [hlt, if_false] at h
          cases h
          exact (List.takeWhile_sublist _).length_le
      · rw [hrec] at h
        cases h
        exact Nat.le_trans (ih _ hrec) (Nat.le_succ _)
    · simp only [hws, if_false] at h
      by_cases hlt : isLineTerm c
      · simp [hlt] at h
      · simp only [hlt, if_false] at h
        cases h
        exact (List.takeWhile_sublist _).length_le

lemma findMatchTitle_length_le : ∀ s g, findMatchTitle s = some g → g.length ≤ s.length := by
  intro s
  induction s with
  | nil => intro g h; simp [findMatchTitle] at h
  | cons c tl ih =>
    intro g h
    unfold findMatchTitle at h
    by_cases hp : startsWithCI ("title:".toList) (c :: tl) = true
    · simp only [hp, if_true] at h
      rcases hcap : capAfterWs ((c :: tl).drop 6) with _ | g2
      · rw [hcap] at h
        exact Nat.le_trans (ih _ h) (Nat.le_succ _)
      · rw [hcap] at h
        cases h
        refine Nat.le_trans (capAfterWs_length_le _ _ hcap) ?_
        rw [List.length_drop]
        exact Nat.sub_le _ _
    · simp only [hp, if_false] at h
      exact Nat.le_trans (ih _ h) (Nat.le_succ _)

lemma findMatchBody_length_le : ∀ s g, findMatchBody s = some g → g.length ≤ s.length := by
  intro s
  induction s with
  | nil => intro g h; simp [findMatchBody] at h
  | cons c tl ih =>
    intro g h
    unfold findMatchBody at h
    by_cases hp : startsWithCI ("body:".toList) (c :: tl) = true
    · simp only [hp, if_true] at h
      cases h
      refine Nat.le_trans (List.dropWhile_sublist _).length_le ?_
      refine Nat.le_trans (Nat.le_of_eq (List.length_drop _ _)) ?_
      exact Nat.sub_le _ _
    · simp only [hp, if_false] at h
      exact Nat.le_trans (ih _ h) (Nat.le_succ _)

lemma jsSplit_ne_nil (sep : Char) (s : List Char) : jsSplit sep s ≠ [] := by
  cases s with
  | nil => simp [jsSplit]
  | cons c cs =>
    unfold jsSplit
    by_cases h : c = sep
    · simp [h]
    · simp only [h, if_false]
      rcases jsSplit sep cs with _ | ⟨l, ls⟩ <;> simp

lemma joinSep_jsSplit (sep : Char) (s : List Char) :
    joinSep sep (jsSplit sep s) = s := by
  induction s with
  | nil => simp [jsSplit, joinSep]
  | cons c cs ih =>
    unfold jsSplit
    by_cases h : c = sep
    · simp only [h, if_true]
      rcases hs : jsSplit sep cs with _ | ⟨l, ls⟩
      · exact absurd hs (jsSplit_ne_nil sep cs)
      · rw [hs] at ih
        simp only [joinSep]
        rw [ih]
        simp
    · simp only [h, if_false]
      rcases hs : jsSplit sep cs with _ | ⟨l, ls⟩
      · exact absurd hs (jsSplit_ne_nil sep cs)
      · rw [hs] at ih
        cases ls with
        | nil => simp only [joinSep] at ih ⊢; rw [ih]
        | cons l2 ls2 =>
          simp only [joinSep] at ih ⊢
          rw [List.cons_append, ih]

lemma joinSep_length_mono (sep : Char) {l1 l2 : List (List Char)} (h : l1.Sublist l2) :
    (joinSep sep l1).length ≤ (joinSep sep l2).length := by
  induction h with
  | slnil => simp
  | @cons l1 l2 a h ih =>
    refine Nat.le_trans ih ?_
    cases l2 with
    | nil => simp [joinSep]
    | cons x xs => simp only [joinSep, List.length_append, List.length_cons]; omega
  | @cons₂ l1 l2 a h ih =>
    cases l1 with
    | nil =>
      cases l2 with
      | nil => exact Nat.le_refl _
      | cons y ys => simp only [joinSep, List.length_append, List.length_cons]; omega
    | cons x xs =>
      cases l2 with
      | nil => simp at h
      | cons y ys =>
        simp only [joinSep, List.length_append, List.length_cons] at ih ⊢
        omega

lemma length_le_of_mem_jsSplit {sep : Char} {a s : List Char}
    (h : a ∈ jsSplit sep s) : a.length ≤ s.length := by
  have hsub : [a].Sublist (jsSplit sep s) := List.singleton_sublist.mpr h
  have := joinSep_length_mono sep hsub
  rw [joinSep_jsSplit] at this
  simpa [joinSep] using this

lemma parseTitleAndBody_length_le (s : List Char) :
    (parseTitleAndBody s).title.length ≤ s.length ∧
    (parseTitleAndBody s).text.length ≤ s.length := by
  unfold parseTitleAndBody
  rcases ht : findMatchTitle s with _ | t <;> rcases hb : findMatchBody s with _ | b
  all_goals simp only
  case some.some =>
    constructor
    · exact Nat.le_trans (length_jsTrim_le t) (findMatchTitle_length_le s t ht)
    · exact Nat.le_trans (length_jsTrim_le b) (findMatchBody_length_le s b hb)
  all_goals {
    constructor
    · rcases hf : (jsSplit '\n' s).filter (fun l => decide (jsTrim l ≠ [])) with _ | ⟨l, ls⟩
      · simp
      · have hmem : l ∈ jsSplit '\n' s := by
          have : l ∈ (jsSplit '\n' s).filter (fun l => decide (jsTrim l ≠ [])) := by
            rw [hf]; exact List.mem_cons_self _ _
          exact List.mem_of_mem_filter this
        exact Nat.le_trans (length_jsTrim_le l) (length_le_of_mem_jsSplit hmem)
    · by_cases hlen :
        ((jsSplit '\n' s).filter (fun l => decide (jsTrim l ≠ []))).length > 1
      · rw [if_pos hlen]
        have hsub : (List.drop 1
              ((jsSplit '\n' s).filter (fun l => decide (jsTrim l ≠ [])))).Sublist
            (jsSplit '\n' s) :=
          (List.drop_sublist _ _).trans (List.filter_sublist _)
        have hj := joinSep_length_mono '\n' hsub
        rw [joinSep_jsSplit] at hj
        exact Nat.le_trans (length_jsTrim_le _) hj
      · rw [if_neg hlen]
  }

lemma find_mapSet_present {m : RateMap} {k : String} (v : RateKey)
    (h : List.any m (fun p => p.1 == k) = true) :
    List.find? (fun p => p.1 == k)
      (List.map (fun p => if p.1 == k then (k, v) else p) m) = some (k, v) := by
  induction m with
  | nil => simp at h
  | cons p m ih =>
    by_cases hp : (p.1 == k) = true
    · rw [List.map_cons, if_pos hp]
      exact List.find?_cons_of_pos _ (beq_self_eq_true k)
    · have hp2 : (p.1 == k) = false := Bool.not_eq_true _ ▸ Bool.eq_false_iff.mpr hp
      have h2 : List.any m (fun p => p.1 == k) = true := by
        rw [List.any_cons] at h
        rcases Bool.or_eq_true_iff.mp h with h3 | h3
        · exact absurd h3 hp
        · exact h3
      rw [List.map_cons, if_neg hp]
      rw [List.find?_cons_of_neg (List.map (fun p => if p.1 == k then (k, v) else p) m) hp]
      exact ih h2

lemma find_mapSet_absent {m : RateMap} {k : String} (v : RateKey)
    (h : List.any m (fun p => p.1 == k) = false) :
    List.find? (fun p => p.1 == k) (m ++ [(k, v)]) = some (k, v) := by
  induction m with
  | nil =>
    rw [List.nil_append]
    exact List.find?_cons_of_pos _ (beq_self_eq_true k)
  | cons p m ih =>
    rw [List.any_cons, Bool.or_eq_false_iff] at h
    rw [List.cons_append, List.find?_cons_of_neg _ (by rw [h.1]; simp)]
    exact ih h.2

lemma mapGet_mapSet_self (m : RateMap) (k : String) (v : RateKey) :
    mapGet (mapSet m k v) k = some v := by
  unfold mapGet mapSet
  by_cases h : List.any m (fun p => p.1 == k) = true
  · rw [if_pos h, find_mapSet_present v h]
  · have h2 : List.any m (fun p => p.1 == k) = false := Bool.eq_false_iff.mpr h
    rw [if_neg h, find_mapSet_absent v h2]

lemma filter_window_replicate (t : Int) (n : Nat) :
    (List.replicate n t).filter (fun x => decide (t - x < WINDOW_MS))
      = List.replicate n t := by
  rw [List.filter_replicate]
  have hd : (decide (t - t < WINDOW_MS)) = true := by
    simp only [sub_self]
    rfl
  rw [hd, if_pos rfl]

lemma callsAt_succ (k : String) (t : Int) :
    ∀ n, callsAt k t (n + 1) = [(k, ⟨k, List.replicate (n + 1) t⟩)] := by
  intro n
  induction n with
  | zero =>
    show (withinRateLimit [] k t).2 = _
    unfold withinRateLimit
    simp only [mapGet, List.find?_nil, Option.getD_none, List.filter_nil,
      List.nil_append, mapSet, List.any_nil, Bool.false_eq_true, if_false]
    rfl
  | succ n ih =>
    show (withinRateLimit (callsAt k t (n + 1)) k t).2 = _
    rw [ih]
    unfold withinRateLimit
    have hfind : List.find? (fun p => p.1 == k)
        [(k, (⟨k, List.replicate (n + 1) t⟩ : RateKey))]
        = some (k, ⟨k, List.replicate (n + 1) t⟩) :=
      List.find?_cons_of_pos _ (beq_self_eq_true k)
    simp only [mapGet, hfind, Option.getD_some, filter_window_replicate]
    have hany : List.any [(k, (⟨k, List.replicate (n + 1) t⟩ : RateKey))]
        (fun p => p.1 == k) = true := by
      rw [List.any_cons]
      rw [beq_self_eq_true k]
      rfl
    simp only [mapSet, hany, if_true, List.map_cons, List.map_nil]
    rw [if_pos (beq_self_eq_true k)]
    rw [← List.replicate_succ' (n + 1) t]

lemma toFixed2_mono {a b : ℚ} (h : a ≤ b) : toFixed2 a ≤ toFixed2 b := by
  unfold toFixed2
  have hf : ⌊a * 100 + 0.5⌋ ≤ ⌊b * 100 + 0.5⌋ := Int.floor_le_floor (by linarith)
  have hc : ((⌊a * 100 + 0.5⌋ : ℚ)) ≤ ((⌊b * 100 + 0.5⌋ : ℚ)) := by exact_mod_cast hf
  linarith

lemma toFixed2_point2 : toFixed2 0.2 = 0.2 := by
  unfold toFixed2
  norm_num

lemma toFixed2_point9 : toFixed2 0.9 = 0.9 := by
  unfold toFixed2
  norm_num

lemma mapCreativity_mono {a b : ℚ} (h : a ≤ b) : mapCreativity a ≤ mapCreativity b := by
  unfold mapCreativity
  apply toFixed2_mono
  have hc : max 0 (min 100 a) ≤ max 0 (min 100 b) :=
    max_le_max le_rfl (min_le_min le_rfl h)
  have h7 : (0.7 : ℚ) * max 0 (min 100 a) ≤ 0.7 * max 0 (min 100 b) := by nlinarith
  linarith

lemma clamped_bounds (v : ℚ) : 0 ≤ max 0 (min 100 v) ∧ max 0 (min 100 v) ≤ 100 := by
  constructor
  · exact le_max_left 0 _
  · exact max_le (by norm_num) (min_le_left 100 v)

lemma withinRateLimit_single (k : String) (ts : List Int) (now : Int) :
    (withinRateLimit [(k, ⟨k, ts⟩)] k now).1
      = decide ((ts.filter (fun t => now - t < WINDOW_MS)).length + 1
          ≤ MAX_REQUESTS_PER_WINDOW) := by
  have hf : List.find? (fun p : String × RateKey => p.1 == k) [(k, ⟨k, ts⟩)]
      = some (k, ⟨k, ts⟩) := List.find?_cons_of_pos _ (beq_self_eq_true k)
  unfold withinRateLimit mapGet
  rw [hf]
  simp [List.length_append]

/-- C1: one admission check of `withinRateLimit` for a key performs
exactly: drop the recorded timestamps older than the 60-second window,
append the current instant, and admit iff the resulting count is at most
12.  Since the append happens before the comparison, the stored entry
contains the current instant unconditionally — in particular a rejected
request still records its timestamp, so rejected attempts count toward
future windows. -/
theorem withinRateLimit_admission_step (m : RateMap) (k : String) (now : Int) :
    (mapGet (withinRateLimit m k now).2 k).map RateKey.timestamps
      = some ((((mapGet m k).getD ⟨k, []⟩).timestamps.filter
          (fun t => now - t < WINDOW_MS)) ++ [now]) ∧
    ((withinRateLimit m k now).1 = true ↔
      (((mapGet m k).getD ⟨k, []⟩).timestamps.filter
          (fun t => now - t < WINDOW_MS)).length + 1 ≤ MAX_REQUESTS_PER_WINDOW) ∧
    now ∈ ((mapGet (withinRateLimit m k now).2 k).getD ⟨k, []⟩).timestamps ∧
    WINDOW_MS = 60000 ∧ MAX_REQUESTS_PER_WINDOW = 12 := by
  have hsnd : (withinRateLimit m k now).2 = mapSet m k
      ⟨((mapGet m k).getD ⟨k, []⟩).key,
        (((mapGet m k).getD ⟨k, []⟩).timestamps.filter
          (fun t => now - t < WINDOW_MS)) ++ [now]⟩ := rfl
  have hfst : (withinRateLimit m k now).1
      = decide (((((mapGet m k).getD ⟨k, []⟩).timestamps.filter
          (fun t => now - t < WINDOW_MS)) ++ [now]).length
            ≤ MAX_REQUESTS_PER_WINDOW) := rfl
  refine ⟨?_, ?_, ?_, rfl, rfl⟩
  · rw [hsnd, mapGet_mapSet_self]
    rfl
  · rw [hfst, decide_eq_true_iff]
    rw [List.length_append, List.length_cons, List.length_nil]
  · rw [hsnd, mapGet_mapSet_self]
    simp

/-- C2: in the scenario of the spec's rate-limiter test — requests for
one key issued in immediate succession at instant `t0` — the 13th request
is rejected (and in general any admission check that still sees 12
in-window timestamps is rejected), while a request issued once the clock
has advanced past 60 seconds from the first recorded timestamp `t0` is
admitted again. -/
theorem rateLimit_thirteenth_rejected_then_window_reset (k : String) (t0 now : Int)
    (m : RateMap) (h : t0 + 60000 < now) :
    (MAX_REQUESTS_PER_WINDOW ≤ (((mapGet m k).getD ⟨k, []⟩).timestamps.filter
        (fun t => t0 - t < WINDOW_MS)).length →
      (withinRateLimit m k t0).1 = false) ∧
    (withinRateLimit (callsAt k t0 12) k t0).1 = false ∧
    (withinRateLimit (callsAt k t0 13) k now).1 = true := by
  have h12 : callsAt k t0 12 = [(k, ⟨k, List.replicate 12 t0⟩)] := by
    have := callsAt_succ k t0 11
    norm_num at this
    exact this
  have h13 : callsAt k t0 13 = [(k, ⟨k, List.replicate 13 t0⟩)] := by
    have := callsAt_succ k t0 12
    norm_num at this
    exact this
  refine ⟨?_, ?_, ?_⟩
  · intro hfull
    have hfst : (withinRateLimit m k t0).1
        = decide (((((mapGet m k).getD ⟨k, []⟩).timestamps.filter
            (fun t => t0 - t < WINDOW_MS)) ++ [t0]).length
              ≤ MAX_REQUESTS_PER_WINDOW) := rfl
    rw [hfst]
    apply decide_eq_false
    rw [List.length_append, List.length_cons, List.length_nil]
    rw [MAX_REQUESTS_PER_WINDOW] at hfull ⊢
    omega
  · rw [h12, withinRateLimit_single, filter_window_replicate]
    apply decide_eq_false
    rw [List.length_replicate, MAX_REQUESTS_PER_WINDOW]
    omega
  · rw [h13, withinRateLimit_single]
    have hout : (List.replicate 13 t0).filter (fun t => decide (now - t < WINDOW_MS))
        = [] := by
      rw [List.filter_replicate]
      have hd : (decide (now - t0 < WINDOW_MS)) = false := by
        apply decide_eq_false
        rw [WINDOW_MS]
        omega
      rw [hd]
      simp
    rw [hout]
    rfl

/-- Witness for the C2 theorem at `k = "a"`, `t0 = 0`, `now = 60001`,
`m = []`. -/
theorem rateLimit_thirteenth_rejected_then_window_reset_witness :
    ((0:Int) + 60000 < 60001) ∧
    ((MAX_REQUESTS_PER_WINDOW ≤ (((mapGet ([] : RateMap) ("a")).getD ⟨"a", []⟩).timestamps.filter
        (fun t => (0:Int) - t < WINDOW_MS)).length →
      (withinRateLimit ([] : RateMap) ("a") 0).1 = false) ∧
    (withinRateLimit (callsAt ("a") 0 12) "a" 0).1 = false ∧
    (withinRateLimit (callsAt ("a") 0 13) "a" 60001).1 = true) :=
  ⟨by norm_num, rateLimit_thirteenth_rejected_then_window_reset ("a") 0 60001 [] (by norm_num)⟩

/-- C8: the creativity-to-sampling mapping (in the exact-arithmetic
idealisation of JS numbers) satisfies `temperature = 0.2 +
0.7*clamp(creativity,0,100)/100` rounded to two decimals, so creativity 0
gives 0.20 and creativity 100 gives 0.90, the mapping is monotone
non-decreasing, the temperature lies in `[0.20, 0.90]` for every input
(integers included), and `top_p = min(1, 0.9 + 0.1*temperature)`. -/
theorem mapCreativity_spec :
    mapCreativity 0 = 0.2 ∧ mapCreativity 100 = 0.9 ∧
    (∀ a b : ℚ, a ≤ b → mapCreativity a ≤ mapCreativity b) ∧
    (∀ v : ℚ, 0.2 ≤ mapCreativity v ∧ mapCreativity v ≤ 0.9) ∧
    (∀ t : ℚ, handlerTopP t = min 1 (0.9 + 0.1 * t)) := by
  refine ⟨?_, ?_, fun a b h => mapCreativity_mono h, ?_, fun t => ?_⟩
  · show toFixed2 (0.2 + (0.7 * max 0 (min 100 (0:ℚ))) / 100) = 0.2
    rw [show max 0 (min 100 (0:ℚ)) = 0 by norm_num]
    rw [show (0.2 : ℚ) + (0.7 * 0) / 100 = 0.2 by norm_num]
    exact toFixed2_point2
  · show toFixed2 (0.2 + (0.7 * max 0 (min 100 (100:ℚ))) / 100) = 0.9
    rw [show max 0 (min 100 (100:ℚ)) = 100 by norm_num]
    rw [show (0.2 : ℚ) + (0.7 * 100) / 100 = 0.9 by norm_num]
    exact toFixed2_point9
  · intro v
    have hc := clamped_bounds v
    constructor
    · calc (0.2 : ℚ) = toFixed2 0.2 := toFixed2_point2.symm
        _ ≤ toFixed2 (0.2 + (0.7 * max 0 (min 100 v)) / 100) :=
          toFixed2_mono (by nlinarith [hc.1])
        _ = mapCreativity v := rfl
    · calc mapCreativity v = toFixed2 (0.2 + (0.7 * max 0 (min 100 v)) / 100) := rfl
        _ ≤ toFixed2 0.9 := toFixed2_mono (by nlinarith [hc.2])
        _ = 0.9 := toFixed2_point9
  · show min 1 (0.9 + t * 0.1) = min 1 (0.9 + 0.1 * t)
    rw [mul_comm]

/-- Witness for the C8 theorem: the monotonicity part applied at the
concrete inputs `30 ≤ 70`, together with the concrete endpoint values. -/
theorem mapCreativity_spec_witness :
    ((30:ℚ) ≤ 70 ∧ mapCreativity 30 ≤ mapCreativity 70) ∧
    (0.2 ≤ mapCreativity 55 ∧ mapCreativity 55 ≤ 0.9) ∧
    handlerTopP 0.55 = min 1 (0.9 + 0.1 * 0.55) :=
  ⟨⟨by norm_num, mapCreativity_spec.2.2.1 30 70 (by norm_num)⟩,
    mapCreativity_spec.2.2.2.1 55, mapCreativity_spec.2.2.2.2 0.55⟩

/-- The spec's embedded-JSON round-trip input:
`{"title":"Mochi needs a home","body":"Line one.\nLine two."}` (the `\n`
is the two-character JSON escape, as in the upstream reply). -/
def embeddedJsonInput : List Char :=
  "\x7b\"title\":\"Mochi needs a home\",\"body\":\"Line one.\\nLine two.\"\x7d".toList

/-- C4 counterexample: on the spec's embedded-JSON input the normalizer
does not produce the claimed title/body pair — there is no JSON strategy
in `parseTitleAndBody`, so the positional fallback fires instead. -/
theorem parseTitleAndBody_json_counterexample :
    (parseTitleAndBody embeddedJsonInput).title ≠ "Mochi needs a home".toList ∧
    (parseTitleAndBody embeddedJsonInput).text ≠ "Line one.\nLine two.".toList := by
  decide

/-- C4 (amended): `parseTitleAndBody` has no embedded-JSON strategy; on
the spec's JSON input neither the `Title:` nor the `Body:` pattern
matches, and the positional fallback returns the entire input text as
both the title and the body. -/
theorem parseTitleAndBody_json_passthrough :
    findMatchTitle embeddedJsonInput = none ∧
    findMatchBody embeddedJsonInput = none ∧
    parseTitleAndBody embeddedJsonInput = ⟨embeddedJsonInput, embeddedJsonInput⟩ := by
  decide

/-- C5 counterexample: the single-line input `"Hello"` has no labelled
match and no second non-blank line, yet the fallback title is `"Hello"`,
not the empty string the claim requires. -/
theorem parseTitleAndBody_single_line_counterexample :
    ((jsSplit '\n' ("Hello".toList)).filter (fun l => jsTrim l ≠ [])).length = 1 ∧
    findMatchTitle ("Hello".toList) = none ∧
    (parseTitleAndBody ("Hello".toList)).text = "Hello".toList ∧
    (parseTitleAndBody ("Hello".toList)).title ≠ ([] : List Char) := by
  decide

/-- C5 (amended): whenever the labelled strategy does not fire, the
positional fallback takes the trimmed first non-blank line as the title
and the remaining non-blank lines, rejoined with newlines and trimmed, as
the body; with fewer than two non-blank lines the entire original text is
the body and the title is the trimmed first non-blank line — empty only
when the text has no non-blank line at all. -/
theorem parseTitleAndBody_positional (s : List Char)
    (h : findMatchTitle s = none ∨ findMatchBody s = none) :
    parseTitleAndBody s = specPositional s := by
  unfold parseTitleAndBody specPositional
  rcases ht : findMatchTitle s with _ | t <;> rcases hb : findMatchBody s with _ | b
  case some.some =>
    rcases h with h | h
    · rw [ht] at h; cases h
    · rw [hb] at h; cases h
  all_goals {
    simp only
    rcases hf : (jsSplit '\n' s).filter (fun l => decide (jsTrim l ≠ [])) with _ | ⟨t0, rest⟩
    · simp
    · cases rest with
      | nil => simp
      | cons t1 rest2 =>
        simp only [List.length_cons]
        have : t1 :: rest2 ≠ [] := by simp
        rw [if_pos (by omega : (rest2.length + 1) + 1 > 1)]
        simp [List.drop]
  }

/-- Witness for the C5 theorem at the spec's positional-fallback example
`"Meet Mochi\nMochi is gentle.\nMochi loves naps."`. -/
theorem parseTitleAndBody_positional_witness :
    (findMatchTitle ("Meet Mochi\nMochi is gentle.\nMochi loves naps.".toList) = none ∨
      findMatchBody ("Meet Mochi\nMochi is gentle.\nMochi loves naps.".toList) = none) ∧
    parseTitleAndBody ("Meet Mochi\nMochi is gentle.\nMochi loves naps.".toList)
      = specPositional ("Meet Mochi\nMochi is gentle.\nMochi loves naps.".toList) :=
  ⟨Or.inl (by decide), parseTitleAndBody_positional _ (Or.inl (by decide))⟩

/-- Sample configuration with origin `https://pages.example`, allow-list
`tok`, and the default output cap. -/
def sampleEnv : Env := ⟨"https://pages.example", "tok", none, "key", ""⟩

/-- Sample well-formed `POST` event from the allowed origin carrying the
given parsed body. -/
def sampleEvent (b : BodyParse) : Event :=
  ⟨"POST", "https://pages.example", "", "", b⟩

/-- An upstream reply whose `Title:` line carries 121 characters. -/
def longTitleReply : String :=
  String.mk (("Title: ").toList ++ List.replicate 121 'a' ++ ("\nBody: ok").toList)

/-- C3 counterexample: a successful (200) result whose title has 121
characters — the source never caps the title at 120. -/
theorem handler_title_exceeds_120 :
    (handler sampleEnv ⟨[], []⟩ 0 (sampleEvent (.parsed (some ("tok"))))
        (.ok ⟨some longTitleReply, none⟩)).1.statusCode = 200 ∧
    (handler sampleEnv ⟨[], []⟩ 0 (sampleEvent (.parsed (some ("tok"))))
        (.ok ⟨some longTitleReply, none⟩)).1.body
      = RespBody.success (List.replicate 121 'a') ("ok".toList) ∧
    120 < (List.replicate 121 'a').length := by
  decide

/-- C3 (amended): every successful (200) result satisfies
`text.length ≤ effectiveCap` and, because title and body are both carved
out of the input that was already sliced to the cap,
`title.length ≤ effectiveCap` as well (`effectiveCap` being the
configured maximum output characters, default 2500); there is no
120-character title cap. -/
theorem handler_success_length_caps (env : Env) (st : Buckets) (now : Int)
    (event : Event) (upstream : UpstreamReply) (ti te : List Char)
    (h : (handler env st now event upstream).1.body = RespBody.success ti te) :
    te.length ≤ env.MAX_OUTPUT_CHARS.getD 2500 ∧
    ti.length ≤ env.MAX_OUTPUT_CHARS.getD 2500 := by
  simp only [handler, jsonResponse] at h
  repeat' split at h
  any_goals simp at h
  all_goals {
    obtain ⟨h1, h2⟩ := h
    subst h1
    subst h2
    refine ⟨Nat.le_trans (parseTitleAndBody_length_le _).2 ?_,
      Nat.le_trans (parseTitleAndBody_length_le _).1 ?_⟩ <;>
      first
      | (rw [List.length_take]; exact min_le_left _ _)
  }

/-- Witness for the C3 theorem: a concrete 200 response with title `T`
and body `B` under the default 2500-character cap. -/
theorem handler_success_length_caps_witness :
    ((handler sampleEnv ⟨[], []⟩ 0 (sampleEvent (.parsed (some ("tok"))))
        (.ok ⟨some ("T\nB"), none⟩)).1.body
      = RespBody.success ("T".toList) ("B".toList)) ∧
    ("B".toList.length ≤ sampleEnv.MAX_OUTPUT_CHARS.getD 2500 ∧
      "T".toList.length ≤ sampleEnv.MAX_OUTPUT_CHARS.getD 2500) :=
  ⟨by decide,
    handler_success_length_caps sampleEnv ⟨[], []⟩ 0 (sampleEvent (.parsed (some ("tok"))))
      (.ok ⟨some ("T\nB"), none⟩) ("T".toList) ("B".toList) (by decide)⟩

/-- C6: with the stage order origin → method → body parse → token → rate
limit, every `POST` from the allowed origin whose body fails to parse is
answered 400 with the rate-limiter state untouched (so no token or
rate-limit check has happened), and every structurally valid `POST` from
the allowed origin whose token is not in the allow-list is answered 401
with the rate-limiter state untouched, regardless of that state. -/
theorem handler_stage_order (env : Env) (st : Buckets) (now : Int)
    (up : UpstreamReply) (ip1 ip2 : String) (h : env.ALLOWED_ORIGIN ≠ "") :
    ((handler env st now ⟨"POST", env.ALLOWED_ORIGIN, ip1, ip2, .malformed⟩ up).1.statusCode
        = 400 ∧
      (handler env st now ⟨"POST", env.ALLOWED_ORIGIN, ip1, ip2, .malformed⟩ up).2 = st) ∧
    (∀ tok : Option String, isAllowedToken (tok.getD ("")) env = false →
      (handler env st now ⟨"POST", env.ALLOWED_ORIGIN, ip1, ip2, .parsed tok⟩ up).1.statusCode
          = 401 ∧
        (handler env st now ⟨"POST", env.ALLOWED_ORIGIN, ip1, ip2, .parsed tok⟩ up).2 = st) := by
  have horig : getAllowedOrigin env.ALLOWED_ORIGIN env = env.ALLOWED_ORIGIN := by
    simp only [getAllowedOrigin]
    rw [if_neg (by simp [h])]
    simp
  constructor
  · simp only [handler, jsonResponse]
    repeat' split
    all_goals simp_all
  · intro tok htok
    simp only [handler, jsonResponse]
    repeat' split
    all_goals simp_all

/-- Witness for the C6 theorem: under `sampleEnv`, a malformed body is
answered 400 and the unknown token `bad` is answered 401. -/
theorem handler_stage_order_witness :
    sampleEnv.ALLOWED_ORIGIN ≠ "" ∧
    isAllowedToken ((some ("bad")).getD ("")) sampleEnv = false ∧
    (handler sampleEnv ⟨[], []⟩ 0 ⟨"POST", sampleEnv.ALLOWED_ORIGIN, "", "", .malformed⟩
        (.httpError (""))).1.statusCode = 400 ∧
    (handler sampleEnv ⟨[], []⟩ 0
        ⟨"POST", sampleEnv.ALLOWED_ORIGIN, "", "", .parsed (some ("bad"))⟩
        (.httpError (""))).1.statusCode = 401 :=
  ⟨by decide, by decide,
    (handler_stage_order sampleEnv ⟨[], []⟩ 0 (.httpError ("")) "" "" (by decide)).1.1,
    ((handler_stage_order sampleEnv ⟨[], []⟩ 0 (.httpError ("")) "" ""
      (by decide)).2 (some ("bad")) (by decide)).1⟩

/-- C7: when an allowed origin is configured, a request whose Origin
header is absent or not exactly equal to it — OPTIONS preflight included
— is answered 403 with no `Access-Control-Allow-Origin` header, and the
header is present in a response iff the request's origin matched the
configured value exactly, in which case it echoes that origin. -/
theorem handler_cors_echo (env : Env) (st : Buckets) (now : Int) (event : Event)
    (up : UpstreamReply) (h : env.ALLOWED_ORIGIN ≠ "") :
    ((handler env st now event up).1.acao ≠ none ↔ event.origin = env.ALLOWED_ORIGIN) ∧
    (event.origin ≠ env.ALLOWED_ORIGIN →
      (handler env st now event up).1.statusCode = 403 ∧
        (handler env st now event up).1.acao = none) ∧
    (event.origin = env.ALLOWED_ORIGIN →
      (handler env st now event up).1.acao = some event.origin) := by
  by_cases he : event.origin = env.ALLOWED_ORIGIN
  · have horig : getAllowedOrigin event.origin env = event.origin := by
      simp only [getAllowedOrigin]
      rw [if_neg (by simp [he, h]), if_pos he]
    have hne : event.origin ≠ "" := fun c => h (he ▸ c)
    simp only [handler, jsonResponse]
    repeat' split
    all_goals simp_all
  · have horig0 : getAllowedOrigin event.origin env = "" := by
      simp only [getAllowedOrigin]
      by_cases h0 : event.origin = ""
      · rw [if_pos (by simp [h0])]
      · rw [if_neg (by simp [h0, h]), if_neg he]
    simp only [handler, jsonResponse]
    repeat' split
    all_goals simp_all

/-- Witness for the C7 theorem under `sampleEnv`, at a mismatching
`OPTIONS` request from `https://evil.example`. -/
theorem handler_cors_echo_witness :
    sampleEnv.ALLOWED_ORIGIN ≠ "" ∧
    ("https://evil.example" : String) ≠ sampleEnv.ALLOWED_ORIGIN ∧
    (handler sampleEnv ⟨[], []⟩ 0 ⟨"OPTIONS", "https://evil.example", "", "", .malformed⟩
        (.httpError (""))).1.statusCode = 403 ∧
    (handler sampleEnv ⟨[], []⟩ 0 ⟨"OPTIONS", "https://evil.example", "", "", .malformed⟩
        (.httpError (""))).1.acao = none :=
  ⟨by decide, by decide,
    ((handler_cors_echo sampleEnv ⟨[], []⟩ 0
        ⟨"OPTIONS", "https://evil.example", "", "", .malformed⟩ (.httpError (""))
        (by decide)).2.1 (by decide)).1,
    ((handler_cors_echo sampleEnv ⟨[], []⟩ 0
        ⟨"OPTIONS", "https://evil.example", "", "", .malformed⟩ (.httpError (""))
        (by decide)).2.1 (by decide)).2⟩

/-- Configuration with both the token allow-list and the upstream
credential missing (empty). -/
def missingConfigEnv : Env := ⟨"https://pages.example", "", none, "", ""⟩

/-- C9 counterexample: with the token allow-list missing, a structurally
valid `POST` from the allowed origin is answered 401 — not the 500 the
claim requires for a missing required server-side setting. -/
theorem handler_missing_config_counterexample :
    missingConfigEnv.ALLOWED_TOKENS = "" ∧
    missingConfigEnv.OPENAI_API_KEY = "" ∧
    (handler missingConfigEnv ⟨[], []⟩ 0
        ⟨"POST", "https://pages.example", "", "", .parsed (some ("tok"))⟩
        (.httpError ("missing key"))).1.statusCode = 401 ∧
    (401 : Nat) ≠ 500 := by
  decide

/-- C9 (amended): the generation endpoint has no configuration-error
path: for every configuration (a missing upstream credential or token
allow-list included), state, instant, event and upstream outcome the
handler never returns status 500 — a missing allow-list surfaces as 401,
and a missing upstream credential can only surface through the 502
upstream-error outcome. -/
theorem handler_never_500 (env : Env) (st : Buckets) (now : Int)
    (event : Event) (upstream : UpstreamReply) :
    (handler env st now event upstream).1.statusCode ≠ 500 := by
  simp only [handler, jsonResponse]
  repeat' split
  all_goals simp

/-- Witness for the C9 theorem at the missing-configuration instance. -/
theorem handler_never_500_witness :
    (handler missingConfigEnv ⟨[], []⟩ 0
        ⟨"POST", "https://pages.example", "", "", .parsed (some ("tok"))⟩
        (.httpError ("missing key"))).1.statusCode ≠ 500 :=
  handler_never_500 missingConfigEnv ⟨[], []⟩ 0
    ⟨"POST", "https://pages.example", "", "", .parsed (some ("tok"))⟩
    (.httpError ("missing key"))

/-- C10: the access gate fails closed on empty configuration: with the
allowed-origin setting unset every request is answered 403 whatever
Origin header it carries (an empty one included); with the allowed-tokens
setting unset every token fails validation and every structurally valid
`POST` from the configured origin is answered 401; a token field that is
absent or the empty string is always answered 401; and parsing the
allow-list never yields an empty entry, because empty entries are dropped. -/
theorem handler_fails_closed :
    (∀ (tokens : String) (mo : Option Nat) (key pid : String) (st : Buckets)
        (now : Int) (ev : Event) (up : UpstreamReply),
      (handler ⟨"", tokens, mo, key, pid⟩ st now ev up).1.statusCode = 403) ∧
    (∀ (o : String) (mo : Option Nat) (key pid token : String),
      isAllowedToken token ⟨o, "", mo, key, pid⟩ = false) ∧
    (∀ (a : String) (mo : Option Nat) (key pid : String) (st : Buckets) (now : Int)
        (ip1 ip2 : String) (up : UpstreamReply) (tok : Option String),
      a ≠ "" →
      (handler ⟨a, "", mo, key, pid⟩ st now ⟨"POST", a, ip1, ip2, .parsed tok⟩ up).1.statusCode
        = 401) ∧
    (∀ (a tokens : String) (mo : Option Nat) (key pid : String) (st : Buckets)
        (now : Int) (ip1 ip2 : String) (up : UpstreamReply) (tok : Option String),
      a ≠ "" → (tok = none ∨ tok = some ("")) →
      (handler ⟨a, tokens, mo, key, pid⟩ st now ⟨"POST", a, ip1, ip2, .parsed tok⟩ up).1.statusCode
        = 401) ∧
    (∀ raw : String, "" ∉ normalizeTokens raw) := by
  have hnotok : ∀ (o : String) (mo : Option Nat) (key pid token : String),
      isAllowedToken token ⟨o, "", mo, key, pid⟩ = false := by
    intro o mo key pid token
    have hn : normalizeTokens ("") = [] := by decide
    simp [isAllowedToken, hn]
  refine ⟨?_, hnotok, ?_, ?_, ?_⟩
  · intro tokens mo key pid st now ev up
    have horig : ∀ ro : String, getAllowedOrigin ro ⟨"", tokens, mo, key, pid⟩ = "" := by
      intro ro
      simp [getAllowedOrigin]
    simp only [handler, jsonResponse]
    repeat' split
    all_goals simp_all
  · intro a mo key pid st now ip1 ip2 up tok ha
    have horig : getAllowedOrigin a ⟨a, "", mo, key, pid⟩ = a := by
      simp only [getAllowedOrigin]
      rw [if_neg (by simp [ha])]
      simp
    have htok := hnotok a mo key pid (tok.getD (""))
    simp only [handler, jsonResponse]
    repeat' split
    all_goals simp_all
  · intro a tokens mo key pid st now ip1 ip2 up tok ha htok
    have horig : getAllowedOrigin a ⟨a, tokens, mo, key, pid⟩ = a := by
      simp only [getAllowedOrigin]
      rw [if_neg (by simp [ha])]
      simp
    have hget : tok.getD ("") = "" := by
      rcases htok with h | h <;> simp [h]
    simp only [handler, jsonResponse]
    repeat' split
    all_goals simp_all
  · intro raw hmem
    simp only [normalizeTokens, List.mem_filter] at hmem
    exact absurd hmem.2 (by simp)

/-- Witness for the C10 theorem at concrete instances of each part. -/
theorem handler_fails_closed_witness :
    (handler ⟨"", "tok", none, "key", ""⟩ ⟨[], []⟩ 0
        ⟨"POST", "", "", "", .malformed⟩ (.httpError (""))).1.statusCode = 403 ∧
    isAllowedToken ("tok") ⟨"https://pages.example", "", none, "key", ""⟩ = false ∧
    (handler ⟨"https://pages.example", "", none, "key", ""⟩ ⟨[], []⟩ 0
        ⟨"POST", "https://pages.example", "", "", .parsed (some ("tok"))⟩
        (.httpError (""))).1.statusCode = 401 ∧
    (handler ⟨"https://pages.example", "tok", none, "key", ""⟩ ⟨[], []⟩ 0
        ⟨"POST", "https://pages.example", "", "", .parsed (some (""))⟩
        (.httpError (""))).1.statusCode = 401 ∧
    "" ∉ normalizeTokens (" , tok ,,") :=
  ⟨handler_fails_closed.1 ("tok") none ("key") ("") ⟨[], []⟩ 0
      ⟨"POST", "", "", "", .malformed⟩ (.httpError ("")),
    handler_fails_closed.2.1 ("https://pages.example") none ("key") ("") ("tok"),
    handler_fails_closed.2.2.1 ("https://pages.example") none ("key") ("") ⟨[], []⟩ 0
      ("") ("") (.httpError ("")) (some ("tok")) (by decide),
    handler_fails_closed.2.2.2.1 ("https://pages.example") ("tok") none ("key") ("") ⟨[], []⟩ 0
      ("") ("") (.httpError ("")) (some ("")) (by decide) (Or.inr rfl),
    handler_fails_closed.2.2.2.2 (" , tok ,,")⟩

/-- Witness for the C1 theorem at the empty map, key `a`, instant 5. -/
theorem withinRateLimit_admission_step_witness :
    (mapGet (withinRateLimit ([] : RateMap) ("a") 5).2 ("a")).map RateKey.timestamps
      = some ((((mapGet ([] : RateMap) ("a")).getD ⟨"a", []⟩).timestamps.filter
          (fun t => 5 - t < WINDOW_MS)) ++ [5]) ∧
    ((withinRateLimit ([] : RateMap) ("a") 5).1 = true ↔
      (((mapGet ([] : RateMap) ("a")).getD ⟨"a", []⟩).timestamps.filter
          (fun t => 5 - t < WINDOW_MS)).length + 1 ≤ MAX_REQUESTS_PER_WINDOW) ∧
    (5 : Int) ∈ ((mapGet (withinRateLimit ([] : RateMap) ("a") 5).2 ("a")).getD
        ⟨"a", []⟩).timestamps ∧
    WINDOW_MS = 60000 ∧ MAX_REQUESTS_PER_WINDOW = 12 :=
  withinRateLimit_admission_step ([] : RateMap) ("a") 5
